import Mathlib

/-!
Shallow embedding of the todo service in `src/app.py` (Flask REST API over an
in-memory list of todos), covering the entity model (`Todo`, its validators,
`Todo.__init__`, `Todo.update`), the collection operations (`get_todos`,
`create_todo`, `get_todo`, `update_todo`, `delete_todo`, `toggle_todo`,
`get_todo_stats`) and the identifier parsing done by `uuid.UUID`.

Modelling conventions:
* Python request values (decoded JSON scalars) are modelled by `PyValue`;
  `PyValue.null` is Python's `None`.
* Timestamps (`datetime.utcnow().isoformat()`) are modelled as natural
  numbers (seconds since the epoch); the ISO-8601 strings produced by the
  code are order-isomorphic to the instants they denote.
* Python's `str.strip()` is modelled by `pyStrip`, `str.lower()` by
  `pyLower` (the strings the code lowercases are ASCII), and `len` on a
  string by `String.length` (code points).
* Exceptions are modelled by explicit error results: `ValidationError` from
  the code becomes `ApiError.validation message statusCode`, and any other
  exception (converted by the `error_handler` decorator into a 500 response)
  becomes `ApiError.server`.
* Out of scope, per the spec: HTTP routing, content-type checking, JSON wire
  encoding, logging, CORS, configuration.
-/

/-- A decoded JSON scalar as seen by the Python handlers.  `null` is Python's
`None`.  (Other JSON shapes - floats, arrays, objects - behave like `int`
for every check the code performs: truthy non-strings.) -/
inductive PyValue where
  | str (s : String)
  | bool (b : Bool)
  | int (n : Int)
  | null
deriving DecidableEq, Repr

/-- Python truthiness of a `PyValue` (`not title` in `_validate_title`). -/
def pyTruthy : PyValue → Bool
  | PyValue.str s => !(s == "")
  | PyValue.bool b => b
  | PyValue.int n => !(n == 0)
  | PyValue.null => false

/-- The string carried by a `PyValue`; only used after validation has
established that the value is a string. -/
def pyStr : PyValue → String
  | PyValue.str s => s
  | _ => ""

/-- The boolean carried by a `PyValue`; only used after validation has
established that the value is a boolean. -/
def pyBool : PyValue → Bool
  | PyValue.bool b => b
  | _ => false

/-- The ASCII whitespace characters `str.strip()` removes: space, tab,
newline, carriage return, vertical tab, form feed. -/
def pySpace (c : Char) : Bool :=
  c == ' ' || c == '\t' || c == '\n' || c == '\r' || c == '\x0b' || c == '\x0c'

/-- Model of `str.strip()` on a character list: drop surrounding whitespace. -/
def pyStripList (cs : List Char) : List Char :=
  ((cs.dropWhile pySpace).reverse.dropWhile pySpace).reverse

/-- Model of `str.strip()`: remove surrounding whitespace. -/
def pyStrip (s : String) : String := String.mk (pyStripList s.toList)

/-- Model of `str.lower()` on one character (the strings the code lowercases - filter
tokens - are ASCII). -/
def pyLowerChar (c : Char) : Char :=
  if 'A' ≤ c && c ≤ 'Z' then Char.ofNat (c.toNat + 32) else c

/-- Model of `str.lower()`. -/
def pyLower (s : String) : String := String.mk (s.toList.map pyLowerChar)

/-- The characters rejected by `Todo._validate_title`'s regex
`[<>"'&]` (`<`, `>`, double quote, single quote, ampersand). -/
def forbiddenChar (c : Char) : Bool :=
  c == '<' || c == '>' || c == '\x22' || c == '\x27' || c == '&'

/-- Model of `Todo._validate_title`: rejects a missing/falsy/non-string title, a title
that trims to empty, a trimmed title longer than 200 characters, and a
trimmed title containing a forbidden character.  Returns the raised
`ValidationError` message, or `none` on success. -/
def validate_title : PyValue → Option String
  | PyValue.str s =>
    if s == "" then some "Title is required and must be a string"
    else
      let t := pyStrip s
      if t == "" then some "Title cannot be empty or whitespace only"
      else if 200 < t.length then some "Title cannot exceed 200 characters"
      else if t.toList.any forbiddenChar then some "Title contains invalid characters"
      else none
  | _ => some "Title is required and must be a string"

/-- Model of `Todo._validate_description`: `None` is accepted; otherwise the value must
be a string of at most 1000 characters. -/
def validate_description : PyValue → Option String
  | PyValue.null => none
  | PyValue.str s =>
    if 1000 < s.length then some "Description cannot exceed 1000 characters" else none
  | _ => some "Description must be a string"

/-- Model of `Todo._validate_completed`: `None` is accepted; otherwise the value must
be a boolean. -/
def validate_completed : PyValue → Option String
  | PyValue.null => none
  | PyValue.bool _ => none
  | _ => some "Completed must be a boolean value"

/-- The todo entity (`class Todo` in `src/app.py`).  Timestamps are modelled
as naturals (see the module docstring). -/
structure Todo where
  id : String
  title : String
  description : String
  completed : Bool
  created_at : Nat
  updated_at : Nat
deriving DecidableEq, Repr

/-- The typed failure produced by an operation: a `ValidationError` (message
and status code) or the 500 response the `error_handler` decorator produces
for any other exception. -/
inductive ApiError where
  | validation (message : String) (statusCode : Nat)
  | server
deriving DecidableEq, Repr

/-- The in-memory collection (`todos = []`), in insertion order. -/
abbrev AppState := List Todo

/-- Model of `Todo.__init__(title, description)`: validates the title then the
description, then stores the trimmed strings with `completed = False` and the
two timestamps.  `newId` models `str(uuid.uuid4())`, `t1`/`t2` the two
`datetime.utcnow()` calls for `created_at`/`updated_at`.  The fall-through
case models the `AttributeError` raised by `description.strip()` when the
description is `None` (which passes `_validate_description`); a validated
title is always a string, so only the description can reach it. -/
def todoInit (title description : PyValue) (newId : String) (t1 t2 : Nat) :
    Except ApiError Todo :=
  match validate_title title with
  | some m => Except.error (ApiError.validation m 400)
  | none =>
    match validate_description description with
    | some m => Except.error (ApiError.validation m 400)
    | none =>
      match title, description with
      | PyValue.str ts, PyValue.str ds =>
        Except.ok { id := newId, title := pyStrip ts, description := pyStrip ds,
                    completed := false, created_at := t1, updated_at := t2 }
      | _, _ => Except.error ApiError.server

/-- Remove every occurrence of `urn:`, scanning left to right
(`hex.replace('urn:', '')` in CPython's `uuid.UUID`). -/
def removeUrn : List Char → List Char
  | 'u' :: 'r' :: 'n' :: ':' :: rest => removeUrn rest
  | c :: rest => c :: removeUrn rest
  | [] => []

/-- Remove every occurrence of `uuid:`, scanning left to right
(`.replace('uuid:', '')` in CPython's `uuid.UUID`). -/
def removeUuidTag : List Char → List Char
  | 'u' :: 'u' :: 'i' :: 'd' :: ':' :: rest => removeUuidTag rest
  | c :: rest => c :: removeUuidTag rest
  | [] => []

/-- A curly brace (written by code point to keep it out of the source text). -/
def braceChar (c : Char) : Bool := c == '\x7b' || c == '\x7d'

/-- Model of `hex.strip('{}')`: drop leading and trailing braces. -/
def stripBraces (cs : List Char) : List Char :=
  ((cs.dropWhile braceChar).reverse.dropWhile braceChar).reverse

/-- A hexadecimal digit, as accepted by `int(hex, 16)`. -/
def hexDigit (c : Char) : Bool :=
  c.isDigit || ('a' ≤ c && c ≤ 'f') || ('A' ≤ c && c ≤ 'F')

/-- Whether `uuid.UUID(s)` succeeds (`validate_todo_id` raises iff it does
not).  Modelled from CPython's `uuid.UUID.__init__`: remove `urn:` and
`uuid:` tags, strip surrounding braces, remove hyphens, then require exactly
32 hexadecimal digits (documented `int(hex, 16)` behaviour). -/
def uuidParseOk (s : String) : Bool :=
  let h := (stripBraces (removeUuidTag (removeUrn s.toList))).filter (fun c => !(c == '-'))
  h.length == 32 && h.all hexDigit

/-- The decoded JSON request body as the handlers read it: the three fields
the code inspects (absent key = `Option.none`), plus whether the mapping has
any other key (so that `not data` - emptiness - is faithful).  `hasOtherKeys`
also lets a body like `\x7b"foo": 1\x7d` be represented.  A missing or
non-object body is out of scope here: `validate_request_data` rejects both
before any field is read, exactly like the empty mapping. -/
structure ReqData where
  title : Option PyValue
  description : Option PyValue
  completed : Option PyValue
  hasOtherKeys : Bool
deriving DecidableEq, Repr

/-- Python dict truthiness: `not data` is true exactly when the mapping has
no keys at all. -/
def ReqData.isEmpty (d : ReqData) : Bool :=
  d.title.isNone && d.description.isNone && d.completed.isNone && !d.hasOtherKeys

/-- Model of `validate_request_data(data, required_fields)`: reject an empty body,
then a missing required `title` (the only required-fields list the code ever
passes is `['title']`, for create, modelled by the `requireTitle` flag), then
validate each of the three known fields that is present, in order.  Returns
the raised `ValidationError` message, or `none`. -/
def validate_request_data (data : ReqData) (requireTitle : Bool) : Option String :=
  if data.isEmpty then some "Request body is required"
  else if requireTitle && data.title.isNone then some "Required field 'title' is missing"
  else
    match data.title.bind validate_title with
    | some m => some m
    | none =>
      match data.description.bind validate_description with
      | some m => some m
      | none => data.completed.bind validate_completed

/-- Model of `find_todo_by_id` minus the id-format check: the first stored todo whose
`id` equals the request string (`todo.id == todo_id`). -/
def findById (s : AppState) (tid : String) : Option Todo :=
  s.find? (fun td => td.id == tid)

/-- Replace the first todo whose id is `tid` (Python mutates the object
`find_todo_by_id` returned, in place in the list). -/
def replaceFirstById : AppState → String → Todo → AppState
  | [], _, _ => []
  | x :: xs, tid, td => if x.id == tid then td :: xs else x :: replaceFirstById xs tid td

/-- Model of `todos.remove(todo)`: remove the first list element equal to `todo`.
(Python compares by object identity here; the argument always comes from
`find_todo_by_id`, so it is an element of the list and `remove` cannot
raise.) -/
def pyRemove (td : Todo) : AppState → AppState
  | [] => []
  | x :: xs => if x = td then xs else x :: pyRemove td xs

/-- One step of `Todo.update`: if a previous step raised, propagate it
(Python skips the rest of the method body); otherwise run this step on the
todo mutated so far. -/
def updStep (p : Todo × Option String) (f : Todo → Todo × Option String) :
    Todo × Option String :=
  match p with
  | (td, some m) => (td, some m)
  | (td, none) => f td

/-- The `if title is not None` block of `Todo.update`: validate, then assign
the trimmed title.  On a validation failure the todo is returned as mutated
so far (the exception aborts the method, leaving the object in place). -/
def updTitle (v : PyValue) (td : Todo) : Todo × Option String :=
  match v with
  | PyValue.null => (td, none)
  | _ =>
    match validate_title v with
    | some m => (td, some m)
    | none => ({ td with title := pyStrip (pyStr v) }, none)

/-- The `if description is not None` block of `Todo.update`. -/
def updDescription (v : PyValue) (td : Todo) : Todo × Option String :=
  match v with
  | PyValue.null => (td, none)
  | _ =>
    match validate_description v with
    | some m => (td, some m)
    | none => ({ td with description := pyStrip (pyStr v) }, none)

/-- The `if completed is not None` block of `Todo.update`. -/
def updCompleted (v : PyValue) (td : Todo) : Todo × Option String :=
  match v with
  | PyValue.null => (td, none)
  | _ =>
    match validate_completed v with
    | some m => (td, some m)
    | none => ({ td with completed := pyBool v }, none)

/-- Model of `Todo.update(title, description, completed)`: the three optional field
blocks in order, then `updated_at` is unconditionally refreshed to the
current time `t`.  Arguments are `PyValue`s because the Python parameters
default to `None` (`data.get(...)` collapses an absent key to `None`).
The result is the todo as mutated (fully on success, partially when a step
raised) plus the raised message, mirroring in-place mutation. -/
def todoUpdate (td : Todo) (title description completed : PyValue) (t : Nat) :
    Todo × Option String :=
  updStep (updStep (updStep (updTitle title td) (updDescription description))
      (updCompleted completed))
    (fun td3 => ({ td3 with updated_at := t }, none))

/-- The `POST /api/v1/todos` handler `create_todo`: validate the request data
(title required), construct the todo, append it.  Returns the response value
and the collection afterwards. -/
def create_todo (data : ReqData) (newId : String) (t1 t2 : Nat) (s : AppState) :
    Except ApiError Todo × AppState :=
  match validate_request_data data true with
  | some m => (Except.error (ApiError.validation m 400), s)
  | none =>
    match todoInit (data.title.getD PyValue.null) (data.description.getD (PyValue.str ""))
        newId t1 t2 with
    | Except.error e => (Except.error e, s)
    | Except.ok td => (Except.ok td, s ++ [td])

/-- The `GET /api/v1/todos/<todo_id>` handler `get_todo`:
`find_todo_by_id` validates the id format (`validate_todo_id`) then scans;
no match becomes `ValidationError('Todo not found', 404)`. -/
def get_todo (tid : String) (s : AppState) : Except ApiError Todo :=
  if uuidParseOk tid then
    match findById s tid with
    | none => Except.error (ApiError.validation "Todo not found" 404)
    | some td => Except.ok td
  else Except.error (ApiError.validation "Invalid todo ID format" 400)

/-- The `PUT /api/v1/todos/<todo_id>` handler `update_todo`: validate the
request data (no required fields), then look up (id format first), then
`todo.update(data.get('title'), data.get('description'),
data.get('completed'))` mutates the stored todo in place. -/
def update_todo (tid : String) (data : ReqData) (t : Nat) (s : AppState) :
    Except ApiError Todo × AppState :=
  match validate_request_data data false with
  | some m => (Except.error (ApiError.validation m 400), s)
  | none =>
    if uuidParseOk tid then
      match findById s tid with
      | none => (Except.error (ApiError.validation "Todo not found" 404), s)
      | some td =>
        match todoUpdate td (data.title.getD PyValue.null) (data.description.getD PyValue.null)
            (data.completed.getD PyValue.null) t with
        | (td1, some m) => (Except.error (ApiError.validation m 400), replaceFirstById s tid td1)
        | (td1, none) => (Except.ok td1, replaceFirstById s tid td1)
    else (Except.error (ApiError.validation "Invalid todo ID format" 400), s)

/-- The `DELETE /api/v1/todos/<todo_id>` handler `delete_todo`: look up (id
format first), then `todos.remove(todo)`. -/
def delete_todo (tid : String) (s : AppState) : Except ApiError Unit × AppState :=
  if uuidParseOk tid then
    match findById s tid with
    | none => (Except.error (ApiError.validation "Todo not found" 404), s)
    | some td => (Except.ok (), pyRemove td s)
  else (Except.error (ApiError.validation "Invalid todo ID format" 400), s)

/-- The `PATCH /api/v1/todos/<todo_id>/toggle` handler `toggle_todo`: look up,
then `todo.update(completed=not todo.completed)`. -/
def toggle_todo (tid : String) (t : Nat) (s : AppState) :
    Except ApiError Todo × AppState :=
  if uuidParseOk tid then
    match findById s tid with
    | none => (Except.error (ApiError.validation "Todo not found" 404), s)
    | some td =>
      match todoUpdate td PyValue.null PyValue.null (PyValue.bool (!td.completed)) t with
      | (td1, some m) => (Except.error (ApiError.validation m 400), replaceFirstById s tid td1)
      | (td1, none) => (Except.ok td1, replaceFirstById s tid td1)
  else (Except.error (ApiError.validation "Invalid todo ID format" 400), s)

/-- The filter tokens `validate_filter_param` accepts. -/
def validFilters : List String := ["all", "completed", "pending"]

/-- Model of `validate_filter_param(filter_param)`: raise when the value is truthy
(non-empty) and its lowercasing is not a valid token; return the lowercased
value when truthy, `all` otherwise. -/
def validate_filter_param (p : String) : Except ApiError String :=
  if !(p == "") && !(validFilters.contains (pyLower p)) then
    Except.error (ApiError.validation
      "Invalid filter parameter. Must be one of: all, completed, pending" 400)
  else Except.ok (if !(p == "") then pyLower p else "all")

/-- The `if/elif/else` filter selection inside `get_todos`: `completed`
selects completed todos, `pending` the rest, anything else the whole list,
always in stored order. -/
def applyFilter (f : String) (s : AppState) : List Todo :=
  if f == "completed" then s.filter (fun td => td.completed)
  else if f == "pending" then s.filter (fun td => !td.completed)
  else s

/-- The `GET /api/v1/todos` handler `get_todos` (continued):
`validate_filter_param(request.args.get('filter', 'all'))` (absent query
parameter = `Option.none`), then the selected subsequence is returned.  The
collection itself is returned unchanged (the handler only reads it). -/
def get_todos (fp : Option String) (s : AppState) :
    Except ApiError (List Todo) × AppState :=
  match validate_filter_param (fp.getD "all") with
  | Except.error e => (Except.error e, s)
  | Except.ok f => (Except.ok (applyFilter f s), s)

/-- Round half to even, as Python's `round` does on an exactly representable
value. -/
def roundHalfEven (q : ℚ) : ℤ :=
  let f := ⌊q⌋
  if q - f < 1 / 2 then f
  else if 1 / 2 < q - f then f + 1
  else if f % 2 = 0 then f else f + 1

/-- Model of `round(x, 2)`.  Python computes on binary floats; the model computes on
the exact rationals the code intends (`completed / total * 100`). -/
def pyRound2 (q : ℚ) : ℚ := (roundHalfEven (q * 100) : ℚ) / 100

/-- The statistics record built by `get_todo_stats`. -/
structure TodoStats where
  total : Nat
  completed : Nat
  pending : Nat
  completion_rate : ℚ
  created_today : Nat
deriving DecidableEq, Repr

/-- Seconds-since-epoch timestamp to UTC calendar day
(`datetime.fromisoformat(...).date()`). -/
def dayOf (t : Nat) : Nat := t / 86400

/-- The `GET /api/v1/todos/stats` handler `get_todo_stats`; `now` models
`datetime.utcnow()`.  Always succeeds. -/
def get_todo_stats (s : AppState) (now : Nat) : TodoStats :=
  let total := s.length
  let completed := (s.filter (fun td => td.completed)).length
  let pending := total - completed
  let completion_rate : ℚ :=
    if 0 < total then pyRound2 ((completed : ℚ) / (total : ℚ) * 100) else 0
  let created_today := (s.filter (fun td => dayOf td.created_at == dayOf now)).length
  { total := total, completed := completed, pending := pending,
    completion_rate := completion_rate, created_today := created_today }

deriving instance DecidableEq for Except

/-!
Spec-side predicates, written from the claims' wording, to compare with the
code's behaviour.
-/

/-- Claim wording: the title is absent, not a string, empty after trimming,
longer than 200 characters after trimming, or contains a forbidden
character. -/
def titleBadB : Option PyValue → Bool
  | Option.none => true
  | Option.some (PyValue.str s) =>
    pyStrip s == "" || decide (200 < (pyStrip s).length)
      || (pyStrip s).toList.any forbiddenChar
  | Option.some _ => true

/-- C1's wording for the description: present but not a string, or a string
longer than 1000 characters.  (Python's `None` is not a string.) -/
def descBadC1B : Option PyValue → Bool
  | Option.none => false
  | Option.some (PyValue.str s) => decide (1000 < s.length)
  | Option.some _ => true

/-- The failure conditions C1 enumerates for a create request. -/
def origC1Bad (data : ReqData) : Bool :=
  titleBadB data.title || descBadC1B data.description

/-- Amended wording for the description: a `ValidationError` arises exactly
when it is present, neither `None` nor a string, or a string longer than
1000 characters (`None` instead crashes the constructor; see `todoInit`). -/
def descBadAmdB : Option PyValue → Bool
  | Option.none => false
  | Option.some PyValue.null => false
  | Option.some (PyValue.str s) => decide (1000 < s.length)
  | Option.some _ => true

/-- Amended wording: the `completed` field, though ignored by the
constructor, is validated by `validate_request_data` when present; it fails
when it is neither `None` nor a boolean. -/
def complBadB : Option PyValue → Bool
  | Option.none => false
  | Option.some PyValue.null => false
  | Option.some (PyValue.bool _) => false
  | Option.some _ => true

/-- The amended failure conditions for a create request. -/
def amdC1Bad (data : ReqData) : Bool :=
  titleBadB data.title || descBadAmdB data.description || complBadB data.completed

/-- Whether a response is a field-validation failure (a `ValidationError`
with status 400 - the spec's `InvalidField`). -/
def isFieldError {α : Type} : Except ApiError α → Bool
  | Except.error (ApiError.validation _ 400) => true
  | _ => false

/-!
Helper lemmas relating the code's validators to the spec-side predicates.
-/

theorem validate_title_isSome (v : PyValue) :
    (validate_title v).isSome = titleBadB (some v) := by
  cases v with
  | str s =>
    by_cases h : s = ""
    · subst h; decide
    · simp only [validate_title, titleBadB, beq_iff_eq, h, if_false]
      split_ifs with h1 h2 h3 <;> simp_all
  | bool b => rfl
  | int n => rfl
  | null => rfl

theorem validate_description_isSome (v : PyValue) :
    (validate_description v).isSome = descBadAmdB (some v) := by
  cases v with
  | str s => simp only [validate_description, descBadAmdB]; split_ifs with h <;> simp_all
  | bool b => rfl
  | int n => rfl
  | null => rfl

theorem validate_completed_isSome (v : PyValue) :
    (validate_completed v).isSome = complBadB (some v) := by
  cases v <;> rfl

/-- A value that passes title validation is a string. -/
theorem validate_title_str (v : PyValue) (h : validate_title v = none) :
    v = PyValue.str (pyStr v) := by
  cases v with
  | str s => rfl
  | bool b => simp [validate_title] at h
  | int n => simp [validate_title] at h
  | null => simp [validate_title] at h

theorem bind_title_isSome (ot : Option PyValue) :
    (ot.bind validate_title).isSome = (ot.isSome && titleBadB ot) := by
  cases ot with
  | none => rfl
  | some v => simp [validate_title_isSome]

theorem bind_description_isSome (od : Option PyValue) :
    (od.bind validate_description).isSome = descBadAmdB od := by
  cases od with
  | none => rfl
  | some v => simp [validate_description_isSome]

theorem bind_completed_isSome (oc : Option PyValue) :
    (oc.bind validate_completed).isSome = complBadB oc := by
  cases oc with
  | none => rfl
  | some v => simp [validate_completed_isSome]

/-- For a create request (`required_fields=['title']`),
`validate_request_data` fails exactly under the amended conditions. -/
theorem valreq_create_isSome (data : ReqData) :
    (validate_request_data data true).isSome = amdC1Bad data := by
  obtain ⟨ot, od, oc, ex⟩ := data
  unfold validate_request_data amdC1Bad ReqData.isEmpty
  cases ot with
  | none => simp [titleBadB]; split_ifs <;> rfl
  | some tv =>
    have h1 := bind_title_isSome (some tv)
    have h2 := bind_description_isSome od
    have h3 := bind_completed_isSome oc
    cases hx : (some tv).bind validate_title <;>
      cases hy : od.bind validate_description <;>
        cases hz : oc.bind validate_completed <;>
          simp_all

/-- A request body that passes `validate_request_data` has, for each of the
three known fields that is present, a value its validator accepts (and a
title present when required). -/
theorem valreq_none_parts (data : ReqData) (req : Bool)
    (h : validate_request_data data req = none) :
    (req = true → data.title.isSome = true)
  ∧ data.title.bind validate_title = none
  ∧ data.description.bind validate_description = none
  ∧ data.completed.bind validate_completed = none := by
  unfold validate_request_data at h
  split_ifs at h with hE hR
  cases hx : data.title.bind validate_title with
  | some m => rw [hx] at h; simp at h
  | none =>
    rw [hx] at h
    cases hy : data.description.bind validate_description with
    | some m => rw [hy] at h; simp at h
    | none =>
      rw [hy] at h
      refine ⟨?_, rfl, rfl, h⟩
      intro hreq
      subst hreq
      simp only [Bool.true_and] at hR
      cases hz : data.title with
      | none => rw [hz] at hR; simp at hR
      | some v => rfl

/-- On validated inputs the constructor crashes (server error) exactly when
the description is `None`, and otherwise succeeds. -/
theorem todoInit_classify (title description : PyValue) (nid : String) (t1 t2 : Nat)
    (hT : validate_title title = none) (hD : validate_description description = none) :
    (description = PyValue.null
      ∧ todoInit title description nid t1 t2 = Except.error ApiError.server)
  ∨ (description ≠ PyValue.null
      ∧ ∃ td, todoInit title description nid t1 t2 = Except.ok td) := by
  have h1 := validate_title_str title hT
  unfold todoInit
  rw [hT, hD]
  cases description with
  | null => left; exact ⟨rfl, by rw [h1]⟩
  | str ds => right; refine ⟨by simp, ?_⟩; rw [h1]; exact ⟨_, rfl⟩
  | bool b => simp [validate_description] at hD
  | int n => simp [validate_description] at hD

/-- C1 (counterexample): the create request with title `"ok"` and
`completed = 5` satisfies none of the failure conditions C1 enumerates
(title fine, description absent), yet `create_todo` rejects it with a
field-validation error, so create does not succeed on all inputs outside
the enumerated conditions. -/
theorem c1_counterexample :
    origC1Bad ⟨some (PyValue.str "ok"), Option.none, some (PyValue.int 5), false⟩ = false
  ∧ (create_todo ⟨some (PyValue.str "ok"), Option.none, some (PyValue.int 5), false⟩
        "d1a0c51e-6527-4b86-a3e1-6f4f9e2f3c10" 0 0 []).1
      = Except.error (ApiError.validation "Completed must be a boolean value" 400) := by
  constructor
  · rfl
  · rfl

/-- C1 (amended): a create request fails with a field-validation error
(`InvalidField`, status 400) exactly when the title is absent / not a string
/ trims to empty / trims to over 200 characters / contains a forbidden
character, or the description is present and neither `None` nor a string, or
is a string over 1000 characters, or `completed` is present and neither
`None` nor a boolean; it fails with an internal (500) error exactly when the
fields validate but the description is present with value `None`; for all
other inputs it succeeds and returns a new todo. -/
theorem c1_create_error_classification (data : ReqData) (nid : String)
    (t1 t2 : Nat) (s : AppState) :
    isFieldError (create_todo data nid t1 t2 s).1 = amdC1Bad data
  ∧ ((create_todo data nid t1 t2 s).1 = Except.error ApiError.server ↔
      amdC1Bad data = false ∧ data.description = some PyValue.null)
  ∧ ((create_todo data nid t1 t2 s).1.isOk = true ↔
      amdC1Bad data = false ∧ data.description ≠ some PyValue.null) := by
  have hs := valreq_create_isSome data
  unfold create_todo
  cases hv : validate_request_data data true with
  | some m =>
    rw [hv] at hs
    simp only [Option.isSome_some] at hs
    simp [isFieldError, Except.isOk, Except.toBool, hs.symm]
  | none =>
    rw [hv] at hs
    simp only [Option.isSome_none] at hs
    obtain ⟨hreq, hT, hD, hC⟩ := valreq_none_parts data true hv
    obtain ⟨tv, htv⟩ := Option.isSome_iff_exists.mp (hreq rfl)
    rw [htv] at hT
    simp only [Option.some_bind] at hT
    cases hd : data.description with
    | none =>
      have hcl := todoInit_classify tv (PyValue.str "") nid t1 t2 hT rfl
      rcases hcl with ⟨hnull, _⟩ | ⟨_, td, hok⟩
      · exact absurd hnull (by simp)
      · rw [htv]
        simp only [Option.getD_some, Option.getD_none]
        rw [hok]
        simp [isFieldError, Except.isOk, Except.toBool, hs.symm]
    | some dv =>
      rw [hd] at hD
      simp only [Option.some_bind] at hD
      have hcl := todoInit_classify tv dv nid t1 t2 hT hD
      rw [htv]
      simp only [Option.getD_some]
      rcases hcl with ⟨hnull, herr⟩ | ⟨hnn, td, hok⟩
      · subst hnull
        rw [herr]
        simp [isFieldError, Except.isOk, Except.toBool, hs.symm]
      · rw [hok]
        simp only [isFieldError, Except.isOk, Except.toBool, hs.symm]
        refine ⟨trivial, ?_, ?_⟩
        · constructor
          · intro hcon; exact Except.noConfusion hcon
          · rintro ⟨-, hcon⟩; exact absurd (by injection hcon) hnn
        · constructor
          · intro _
            exact ⟨trivial, fun hcon => hnn (by injection hcon)⟩
          · intro _; trivial

/-- When no earlier step of `Todo.update` raised, the next step runs on the
todo produced so far. -/
theorem updStep_of_none (p : Todo × Option String) (f : Todo → Todo × Option String)
    (h : p.2 = none) : updStep p f = f p.1 := by
  obtain ⟨td, m⟩ := p
  cases m with
  | none => rfl
  | some m => simp at h

theorem updTitle_snd (v : PyValue) (td : Todo)
    (h : v = PyValue.null ∨ validate_title v = none) : (updTitle v td).2 = none := by
  rcases h with h | h
  · subst h; rfl
  · unfold updTitle
    cases v <;> simp_all

theorem updDescription_snd (v : PyValue) (td : Todo)
    (h : v = PyValue.null ∨ validate_description v = none) : (updDescription v td).2 = none := by
  rcases h with h | h
  · subst h; rfl
  · unfold updDescription
    cases v <;> simp_all

theorem updCompleted_snd (v : PyValue) (td : Todo)
    (h : v = PyValue.null ∨ validate_completed v = none) : (updCompleted v td).2 = none := by
  rcases h with h | h
  · subst h; rfl
  · unfold updCompleted
    cases v <;> simp_all

/-- Lemma: `Todo.update` raises nothing when every non-`None` argument passes its
validator - in particular after `validate_request_data` has vetted the
request. -/
theorem todoUpdate_snd_none (td : Todo) (a b c : PyValue) (t : Nat)
    (ha : a = PyValue.null ∨ validate_title a = none)
    (hb : b = PyValue.null ∨ validate_description b = none)
    (hc : c = PyValue.null ∨ validate_completed c = none) :
    (todoUpdate td a b c t).2 = none := by
  unfold todoUpdate
  rw [updStep_of_none _ _ (updTitle_snd a td ha)]
  rw [updStep_of_none _ _ (updDescription_snd b _ hb)]
  rw [updStep_of_none _ _ (updCompleted_snd c _ hc)]

/-- A `data.get(field)` value vetted by `validate_request_data` is either
`None` (absent key) or passes the field validator. -/
theorem getD_null_vetted (ov : Option PyValue) (f : PyValue → Option String)
    (h : ov.bind f = none) :
    ov.getD PyValue.null = PyValue.null ∨ f (ov.getD PyValue.null) = none := by
  cases ov with
  | none => left; rfl
  | some v => right; simpa using h

/-- Concrete fixtures used by the witnesses below. -/
def uidA : String := "123e4567-e89b-12d3-a456-426614174000"

/-- A second well-formed identifier, distinct from `uidA`. -/
def uidB : String := "00000000-0000-0000-0000-000000000001"

/-- A sample stored todo with id `uidA`. -/
def todoA : Todo :=
  { id := uidA, title := "Buy milk", description := "", completed := false,
    created_at := 3, updated_at := 5 }

/-- A sample stored todo with id `uidB`. -/
def todoB : Todo :=
  { id := uidB, title := "Write report", description := "notes", completed := true,
    created_at := 4, updated_at := 6 }

/-- C2: every mutating operation (create, update, delete, toggle) that
returns an error - field validation, invalid identifier, or not-found -
leaves the collection, and hence every todo in it, exactly as it was.  For
update this relies on `validate_request_data` vetting every provided field
before `Todo.update` runs, so the partial-mutation path inside `Todo.update`
is unreachable from the handler. -/
theorem c2_error_atomicity :
    (∀ (data : ReqData) (nid : String) (t1 t2 : Nat) (s : AppState) (e : ApiError),
        (create_todo data nid t1 t2 s).1 = Except.error e → (create_todo data nid t1 t2 s).2 = s)
  ∧ (∀ (tid : String) (data : ReqData) (t : Nat) (s : AppState) (e : ApiError),
        (update_todo tid data t s).1 = Except.error e → (update_todo tid data t s).2 = s)
  ∧ (∀ (tid : String) (s : AppState) (e : ApiError),
        (delete_todo tid s).1 = Except.error e → (delete_todo tid s).2 = s)
  ∧ (∀ (tid : String) (t : Nat) (s : AppState) (e : ApiError),
        (toggle_todo tid t s).1 = Except.error e → (toggle_todo tid t s).2 = s) := by
  refine ⟨?_, ?_, ?_, ?_⟩
  · intro data nid t1 t2 s e h
    unfold create_todo at h ⊢
    cases hv : validate_request_data data true with
    | some m => rfl
    | none =>
      rw [hv] at h
      cases hi : todoInit (data.title.getD PyValue.null)
          (data.description.getD (PyValue.str "")) nid t1 t2 with
      | error e2 => rfl
      | ok td => rw [hi] at h; simp at h
  · intro tid data t s e h
    unfold update_todo at h ⊢
    cases hv : validate_request_data data false with
    | some m => rfl
    | none =>
      rw [hv] at h
      obtain ⟨-, hT, hD, hC⟩ := valreq_none_parts data false hv
      by_cases hu : uuidParseOk tid = true
      · rw [if_pos hu] at h ⊢
        cases hf : findById s tid with
        | none => rfl
        | some td =>
          rw [hf] at h
          simp only [] at h
          have hsnd := todoUpdate_snd_none td (data.title.getD PyValue.null)
            (data.description.getD PyValue.null) (data.completed.getD PyValue.null) t
            (getD_null_vetted _ _ hT) (getD_null_vetted _ _ hD) (getD_null_vetted _ _ hC)
          rcases hq : todoUpdate td (data.title.getD PyValue.null)
            (data.description.getD PyValue.null) (data.completed.getD PyValue.null) t
            with ⟨td1, m1⟩
          rw [hq] at h hsnd
          cases m1 with
          | some m => simp at hsnd
          | none => simp at h
      · rw [if_neg hu]
  · intro tid s e h
    unfold delete_todo at h ⊢
    by_cases hu : uuidParseOk tid = true
    · rw [if_pos hu] at h ⊢
      cases hf : findById s tid with
      | none => rfl
      | some td => rw [hf] at h; simp at h
    · rw [if_neg hu]
  · intro tid t s e h
    unfold toggle_todo at h ⊢
    by_cases hu : uuidParseOk tid = true
    · rw [if_pos hu] at h ⊢
      cases hf : findById s tid with
      | none => rfl
      | some td =>
        rw [hf] at h
        simp only [] at h
        have hsnd := todoUpdate_snd_none td PyValue.null PyValue.null
          (PyValue.bool (!td.completed)) t (Or.inl rfl) (Or.inl rfl) (Or.inr rfl)
        rcases hq : todoUpdate td PyValue.null PyValue.null (PyValue.bool (!td.completed)) t
          with ⟨td1, m1⟩
        rw [hq] at h hsnd
        cases m1 with
        | some m => simp at hsnd
        | none => simp at h
    · rw [if_neg hu]

/-- C2 witness: each branch of `c2_error_atomicity` applied at a concrete
failing request: a whitespace-only title, a malformed id on update and
delete, and a well-formed but absent id on toggle. -/
theorem c2_error_atomicity_witness :
    (create_todo ⟨some (PyValue.str "   "), Option.none, Option.none, false⟩ uidA 0 0 []).2 = []
  ∧ (update_todo "bad-id" ⟨some (PyValue.str "x"), Option.none, Option.none, false⟩
      7 [todoA]).2 = [todoA]
  ∧ (delete_todo "bad-id" [todoA]).2 = [todoA]
  ∧ (toggle_todo uidB 7 [todoA]).2 = [todoA] :=
  ⟨c2_error_atomicity.1 ⟨some (PyValue.str "   "), Option.none, Option.none, false⟩ uidA 0 0 []
      (ApiError.validation "Title cannot be empty or whitespace only" 400) (by decide),
   c2_error_atomicity.2.1 "bad-id" ⟨some (PyValue.str "x"), Option.none, Option.none, false⟩
      7 [todoA] (ApiError.validation "Invalid todo ID format" 400) (by decide),
   c2_error_atomicity.2.2.1 "bad-id" [todoA]
      (ApiError.validation "Invalid todo ID format" 400) (by decide),
   c2_error_atomicity.2.2.2 uidB 7 [todoA]
      (ApiError.validation "Todo not found" 404) (by decide)⟩

/-- C3: for every title and description string pair accepted by the
validators, create followed by get_by_id on the returned id yields the
stored todo: title and description trimmed of surrounding whitespace,
`completed = false`.  Hypotheses: the generated id is well-formed (uuid4
strings always are) and fresh (uuid4 uniqueness). -/
theorem c3_create_get_roundtrip (t d : String) (nid : String) (t1 t2 : Nat) (s : AppState)
    (hvt : validate_title (PyValue.str t) = none)
    (hvd : validate_description (PyValue.str d) = none)
    (hid : uuidParseOk nid = true)
    (hfresh : ∀ td ∈ s, td.id ≠ nid) :
    ∃ td,
      (create_todo ⟨some (PyValue.str t), some (PyValue.str d), Option.none, false⟩
          nid t1 t2 s).1 = Except.ok td
      ∧ td.id = nid
      ∧ get_todo nid (create_todo ⟨some (PyValue.str t), some (PyValue.str d), Option.none, false⟩
          nid t1 t2 s).2 = Except.ok td
      ∧ td.title = pyStrip t ∧ td.description = pyStrip d ∧ td.completed = false := by
  have hv : validate_request_data
      ⟨some (PyValue.str t), some (PyValue.str d), Option.none, false⟩ true = none := by
    unfold validate_request_data ReqData.isEmpty
    simp [hvt, hvd]
  have hinit : todoInit (PyValue.str t) (PyValue.str d) nid t1 t2 =
      Except.ok { id := nid, title := pyStrip t, description := pyStrip d,
                  completed := false, created_at := t1, updated_at := t2 } := by
    unfold todoInit
    rw [hvt, hvd]
  have hcr : create_todo ⟨some (PyValue.str t), some (PyValue.str d), Option.none, false⟩
      nid t1 t2 s =
      (Except.ok { id := nid, title := pyStrip t, description := pyStrip d,
                   completed := false, created_at := t1, updated_at := t2 },
       s ++ [{ id := nid, title := pyStrip t, description := pyStrip d,
               completed := false, created_at := t1, updated_at := t2 }]) := by
    unfold create_todo
    rw [hv]
    simp only [Option.getD_some]
    rw [hinit]
  refine ⟨_, by rw [hcr], rfl, ?_, rfl, rfl, rfl⟩
  rw [hcr]
  unfold get_todo
  rw [if_pos hid]
  unfold findById
  rw [List.find?_append]
  have h1 : s.find? (fun td => td.id == nid) = none := by
    rw [List.find?_eq_none]
    intro x hx
    simpa using hfresh x hx
  rw [h1]
  simp

/-- C3 witness: the round-trip at title `" Buy milk "`, description
`" note "`, a concrete well-formed fresh id, and the empty collection. -/
theorem c3_create_get_roundtrip_witness :
    ∃ td,
      (create_todo ⟨some (PyValue.str " Buy milk "), some (PyValue.str " note "), Option.none,
          false⟩ uidA 3 5 []).1 = Except.ok td
      ∧ td.id = uidA
      ∧ get_todo uidA (create_todo ⟨some (PyValue.str " Buy milk "),
          some (PyValue.str " note "), Option.none, false⟩ uidA 3 5 []).2 = Except.ok td
      ∧ td.title = pyStrip " Buy milk " ∧ td.description = pyStrip " note "
      ∧ td.completed = false :=
  c3_create_get_roundtrip " Buy milk " " note " uidA 3 5 []
    (by decide) (by decide) (by decide) (by simp)

theorem todoInit_times (a b : PyValue) (nid : String) (t1 t2 : Nat) (td : Todo)
    (h : todoInit a b nid t1 t2 = Except.ok td) :
    td.id = nid ∧ td.created_at = t1 ∧ td.updated_at = t2 := by
  unfold todoInit at h
  split at h
  · exact absurd h (by simp)
  · split at h
    · exact absurd h (by simp)
    · split at h
      · injection h with h
        subst h
        exact ⟨rfl, rfl, rfl⟩
      · exact absurd h (by simp)

theorem updTitle_keeps (v : PyValue) (td : Todo) :
    ((updTitle v td).1).id = td.id ∧ ((updTitle v td).1).created_at = td.created_at
      ∧ ((updTitle v td).1).updated_at = td.updated_at ∧
      ((updTitle v td).1).completed = td.completed := by
  unfold updTitle
  cases v with
  | null => exact ⟨rfl, rfl, rfl, rfl⟩
  | str s => cases h : validate_title (PyValue.str s) <;> exact ⟨rfl, rfl, rfl, rfl⟩
  | bool b => cases h : validate_title (PyValue.bool b) <;> exact ⟨rfl, rfl, rfl, rfl⟩
  | int n => cases h : validate_title (PyValue.int n) <;> exact ⟨rfl, rfl, rfl, rfl⟩

theorem updDescription_keeps (v : PyValue) (td : Todo) :
    ((updDescription v td).1).id = td.id ∧ ((updDescription v td).1).created_at = td.created_at
      ∧ ((updDescription v td).1).updated_at = td.updated_at ∧
      ((updDescription v td).1).completed = td.completed := by
  unfold updDescription
  cases v with
  | null => exact ⟨rfl, rfl, rfl, rfl⟩
  | str s => cases h : validate_description (PyValue.str s) <;> exact ⟨rfl, rfl, rfl, rfl⟩
  | bool b => cases h : validate_description (PyValue.bool b) <;> exact ⟨rfl, rfl, rfl, rfl⟩
  | int n => cases h : validate_description (PyValue.int n) <;> exact ⟨rfl, rfl, rfl, rfl⟩

theorem updCompleted_keeps (v : PyValue) (td : Todo) :
    ((updCompleted v td).1).id = td.id ∧ ((updCompleted v td).1).created_at = td.created_at
      ∧ ((updCompleted v td).1).updated_at = td.updated_at := by
  unfold updCompleted
  cases v with
  | null => exact ⟨rfl, rfl, rfl⟩
  | str s => cases h : validate_completed (PyValue.str s) <;> exact ⟨rfl, rfl, rfl⟩
  | bool b => cases h : validate_completed (PyValue.bool b) <;> exact ⟨rfl, rfl, rfl⟩
  | int n => cases h : validate_completed (PyValue.int n) <;> exact ⟨rfl, rfl, rfl⟩

theorem updStep_keeps (p : Todo × Option String) (f : Todo → Todo × Option String)
    (hf : ∀ td, ((f td).1).id = td.id ∧ ((f td).1).created_at = td.created_at
      ∧ ((f td).1).updated_at = td.updated_at) :
    ((updStep p f).1).id = (p.1).id ∧ ((updStep p f).1).created_at = (p.1).created_at
      ∧ ((updStep p f).1).updated_at = (p.1).updated_at := by
  obtain ⟨td, m⟩ := p
  cases m with
  | none => exact hf td
  | some m => exact ⟨rfl, rfl, rfl⟩

/-- Lemma: `Todo.update` never changes `id` or `created_at`, and either leaves
`updated_at` alone (a validation failure aborted the method) or sets it to
the current time. -/
theorem todoUpdate_keeps (td : Todo) (a b c : PyValue) (t : Nat) :
    ((todoUpdate td a b c t).1).id = td.id
  ∧ ((todoUpdate td a b c t).1).created_at = td.created_at
  ∧ (((todoUpdate td a b c t).1).updated_at = td.updated_at
      ∨ ((todoUpdate td a b c t).1).updated_at = t) := by
  unfold todoUpdate
  have h1 := updTitle_keeps a td
  have h2 := updStep_keeps (updTitle a td) (updDescription b)
    (fun x => ⟨(updDescription_keeps b x).1, (updDescription_keeps b x).2.1,
      (updDescription_keeps b x).2.2.1⟩)
  have h3 := updStep_keeps (updStep (updTitle a td) (updDescription b)) (updCompleted c)
    (fun x => updCompleted_keeps c x)
  rcases hfin : updStep (updStep (updTitle a td) (updDescription b)) (updCompleted c)
    with ⟨td3, m3⟩
  rw [hfin] at h3
  have hid : td3.id = td.id := by
    rw [(show (td3, m3).1 = td3 from rfl)] at h3
    rw [h3.1, h2.1, h1.1]
  have hcr : td3.created_at = td.created_at := by
    rw [(show (td3, m3).1 = td3 from rfl)] at h3
    rw [h3.2.1, h2.2.1, h1.2.1]
  have hup : td3.updated_at = td.updated_at := by
    rw [(show (td3, m3).1 = td3 from rfl)] at h3
    rw [h3.2.2, h2.2.2, h1.2.2.1]
  cases m3 with
  | none => exact ⟨hid, hcr, Or.inr rfl⟩
  | some m => exact ⟨hid, hcr, Or.inl hup⟩

/-- When `Todo.update` completes without an exception, `updated_at` is
exactly the current time. -/
theorem todoUpdate_updated_of_ok (td : Todo) (a b c : PyValue) (t : Nat)
    (h : (todoUpdate td a b c t).2 = none) :
    ((todoUpdate td a b c t).1).updated_at = t := by
  rcases hfin : updStep (updStep (updTitle a td) (updDescription b)) (updCompleted c)
    with ⟨td3, m3⟩
  cases m3 with
  | none =>
    have heq : todoUpdate td a b c t = ({ td3 with updated_at := t }, none) := by
      unfold todoUpdate
      rw [hfin]
      rfl
    rw [heq]
  | some m =>
    exfalso
    have heq : todoUpdate td a b c t = (td3, some m) := by
      unfold todoUpdate
      rw [hfin]
      rfl
    rw [heq] at h
    simp at h

theorem mem_replaceFirstById (s : AppState) (tid : String) (td1 x : Todo)
    (hx : x ∈ replaceFirstById s tid td1) : x ∈ s ∨ x = td1 := by
  induction s with
  | nil => simp [replaceFirstById] at hx
  | cons y ys ih =>
    unfold replaceFirstById at hx
    split at hx
    · rcases List.mem_cons.mp hx with h | h
      · right; exact h
      · left; exact List.mem_cons_of_mem _ h
    · rcases List.mem_cons.mp hx with h | h
      · left; exact h ▸ List.mem_cons_self _ _
      · rcases ih h with h2 | h2
        · left; exact List.mem_cons_of_mem _ h2
        · right; exact h2

theorem mem_pyRemove (td : Todo) (s : AppState) (x : Todo)
    (hx : x ∈ pyRemove td s) : x ∈ s := by
  induction s with
  | nil => simp [pyRemove] at hx
  | cons y ys ih =>
    unfold pyRemove at hx
    split at hx
    · exact List.mem_cons_of_mem _ hx
    · rcases List.mem_cons.mp hx with h | h
      · exact h ▸ List.mem_cons_self _ _
      · exact List.mem_cons_of_mem _ (ih h)

theorem create_mem (data : ReqData) (nid : String) (t1 t2 : Nat) (s : AppState) (x : Todo)
    (hx : x ∈ (create_todo data nid t1 t2 s).2) :
    x ∈ s ∨ (x.created_at = t1 ∧ x.updated_at = t2) := by
  unfold create_todo at hx
  cases hv : validate_request_data data true with
  | some m => rw [hv] at hx; simp only [] at hx; left; exact hx
  | none =>
    rw [hv] at hx
    simp only [] at hx
    cases hi : todoInit (data.title.getD PyValue.null)
        (data.description.getD (PyValue.str "")) nid t1 t2 with
    | error e => rw [hi] at hx; simp only [] at hx; left; exact hx
    | ok td =>
      rw [hi] at hx
      simp only [] at hx
      rcases List.mem_append.mp hx with h | h
      · left; exact h
      · right
        have ht := todoInit_times _ _ _ _ _ _ hi
        have : x = td := by simpa using h
        subst this
        exact ⟨ht.2.1, ht.2.2⟩

theorem update_mem (tid : String) (data : ReqData) (t : Nat) (s : AppState) (x : Todo)
    (hx : x ∈ (update_todo tid data t s).2) :
    x ∈ s ∨ ∃ td, td ∈ s ∧ x.created_at = td.created_at
      ∧ (x.updated_at = td.updated_at ∨ x.updated_at = t) := by
  unfold update_todo at hx
  cases hv : validate_request_data data false with
  | some m => rw [hv] at hx; simp only [] at hx; left; exact hx
  | none =>
    rw [hv] at hx
    simp only [] at hx
    by_cases hu : uuidParseOk tid = true
    · rw [if_pos hu] at hx
      cases hf : findById s tid with
      | none => rw [hf] at hx; simp only [] at hx; left; exact hx
      | some td =>
        rw [hf] at hx
        simp only [] at hx
        have hmem : td ∈ s := List.mem_of_find?_eq_some hf
        have hk := todoUpdate_keeps td (data.title.getD PyValue.null)
          (data.description.getD PyValue.null) (data.completed.getD PyValue.null) t
        rcases hq : todoUpdate td (data.title.getD PyValue.null)
          (data.description.getD PyValue.null) (data.completed.getD PyValue.null) t
          with ⟨td1, m1⟩
        rw [hq] at hx hk
        have hx2 : x ∈ replaceFirstById s tid td1 := by
          cases m1 with
          | some m => exact hx
          | none => exact hx
        rcases mem_replaceFirstById s tid td1 x hx2 with h | h
        · left; exact h
        · right
          subst h
          exact ⟨td, hmem, hk.2.1, hk.2.2⟩
    · rw [if_neg hu] at hx; left; exact hx

theorem toggle_mem (tid : String) (t : Nat) (s : AppState) (x : Todo)
    (hx : x ∈ (toggle_todo tid t s).2) :
    x ∈ s ∨ ∃ td, td ∈ s ∧ x.created_at = td.created_at
      ∧ (x.updated_at = td.updated_at ∨ x.updated_at = t) := by
  unfold toggle_todo at hx
  by_cases hu : uuidParseOk tid = true
  · rw [if_pos hu] at hx
    cases hf : findById s tid with
    | none => rw [hf] at hx; simp only [] at hx; left; exact hx
    | some td =>
      rw [hf] at hx
      simp only [] at hx
      have hmem : td ∈ s := List.mem_of_find?_eq_some hf
      have hk := todoUpdate_keeps td PyValue.null PyValue.null
        (PyValue.bool (!td.completed)) t
      rcases hq : todoUpdate td PyValue.null PyValue.null (PyValue.bool (!td.completed)) t
        with ⟨td1, m1⟩
      rw [hq] at hx hk
      have hx2 : x ∈ replaceFirstById s tid td1 := by
        cases m1 with
        | some m => exact hx
        | none => exact hx
      rcases mem_replaceFirstById s tid td1 x hx2 with h | h
      · left; exact h
      · right
        subst h
        exact ⟨td, hmem, hk.2.1, hk.2.2⟩
  · rw [if_neg hu] at hx; left; exact hx

theorem delete_mem (tid : String) (s : AppState) (x : Todo)
    (hx : x ∈ (delete_todo tid s).2) : x ∈ s := by
  unfold delete_todo at hx
  by_cases hu : uuidParseOk tid = true
  · rw [if_pos hu] at hx
    cases hf : findById s tid with
    | none => rw [hf] at hx; simp only [] at hx; exact hx
    | some td =>
      rw [hf] at hx
      simp only [] at hx
      exact mem_pyRemove td s x hx
  · rw [if_neg hu] at hx; exact hx

/-- States reachable from the empty collection by any sequence of create,
update, toggle and delete requests, with a monotone clock: the index is the
time of the most recent call, and each call's clock readings are no earlier
than every previous reading. -/
inductive Reach : Nat → AppState → Prop where
  | init : Reach 0 []
  | create {now : Nat} {s : AppState} (data : ReqData) (nid : String) (t1 t2 : Nat)
      (h : Reach now s) (h1 : now ≤ t1) (h2 : t1 ≤ t2) :
      Reach t2 (create_todo data nid t1 t2 s).2
  | update {now : Nat} {s : AppState} (tid : String) (data : ReqData) (t : Nat)
      (h : Reach now s) (h1 : now ≤ t) : Reach t (update_todo tid data t s).2
  | toggle {now : Nat} {s : AppState} (tid : String) (t : Nat)
      (h : Reach now s) (h1 : now ≤ t) : Reach t (toggle_todo tid t s).2
  | delete {now : Nat} {s : AppState} (tid : String) (h : Reach now s) :
      Reach now (delete_todo tid s).2

theorem reach_invariant {now : Nat} {s : AppState} (h : Reach now s) :
    ∀ td ∈ s, td.created_at ≤ td.updated_at ∧ td.updated_at ≤ now := by
  induction h with
  | init => intro td hm; simp at hm
  | create data nid t1 t2 h h1 h2 ih =>
    intro td hm
    rcases create_mem data nid t1 t2 _ td hm with hin | ⟨hc, hu⟩
    · have := ih td hin
      exact ⟨this.1, this.2.trans (h1.trans h2)⟩
    · rw [hc, hu]
      exact ⟨h2, le_refl _⟩
  | update tid data t h h1 ih =>
    intro td hm
    rcases update_mem tid data t _ td hm with hin | ⟨td0, hin, hc, hu⟩
    · have := ih td hin
      exact ⟨this.1, this.2.trans h1⟩
    · have h0 := ih td0 hin
      rcases hu with hu | hu
      · rw [hc, hu]
        exact ⟨h0.1, h0.2.trans h1⟩
      · rw [hc, hu]
        exact ⟨h0.1.trans (h0.2.trans h1), le_refl _⟩
  | toggle tid t h h1 ih =>
    intro td hm
    rcases toggle_mem tid t _ td hm with hin | ⟨td0, hin, hc, hu⟩
    · have := ih td hin
      exact ⟨this.1, this.2.trans h1⟩
    · have h0 := ih td0 hin
      rcases hu with hu | hu
      · rw [hc, hu]
        exact ⟨h0.1, h0.2.trans h1⟩
      · rw [hc, hu]
        exact ⟨h0.1.trans (h0.2.trans h1), le_refl _⟩
  | delete tid h ih =>
    intro td hm
    exact ih td (delete_mem tid _ td hm)

/-- C4: in every state reachable by any sequence of create, update, toggle
and delete operations under a clock that never goes backwards, every stored
todo satisfies `created_at <= updated_at`. -/
theorem c4_updated_ge_created {now : Nat} {s : AppState} (h : Reach now s) (td : Todo) (hm : td ∈ s) :
    td.created_at ≤ td.updated_at :=
  (reach_invariant h td hm).1

/-- C4 witness: the invariant applied to the singleton state produced by one
concrete create call with clock readings 3 and 5. -/
theorem c4_updated_ge_created_witness :
    (⟨uidA, "a", "", false, 3, 5⟩ : Todo).created_at
      ≤ (⟨uidA, "a", "", false, 3, 5⟩ : Todo).updated_at :=
  c4_updated_ge_created
    (Reach.create ⟨some (PyValue.str "a"), Option.none, Option.none, false⟩ uidA 3 5
      Reach.init (by decide) (by decide))
    ⟨uidA, "a", "", false, 3, 5⟩ (by decide)

theorem validate_filter_param_ok (v : String) (h : (v == "") = false)
    (hc : validFilters.contains (pyLower v) = true) :
    validate_filter_param v = Except.ok (pyLower v) := by
  have hc2 : pyLower v ∈ validFilters := by simpa using hc
  unfold validate_filter_param
  simp [h, hc2]

theorem validate_filter_param_err (v : String) (h : (v == "") = false)
    (hc : validFilters.contains (pyLower v) = false) :
    validate_filter_param v = Except.error (ApiError.validation
      "Invalid filter parameter. Must be one of: all, completed, pending" 400) := by
  have hc2 : pyLower v ∉ validFilters := by simpa using hc
  unfold validate_filter_param
  simp [h, hc2]

/-- C5 (counterexample): the empty string is a supplied filter value that is
not one of the tokens `all` / `completed` / `pending`, yet `get_todos`
accepts it (Python's truthiness check skips validation for a falsy value)
and returns the whole collection instead of failing with `InvalidFilter`. -/
theorem c5_counterexample :
    validFilters.contains (pyLower "") = false
  ∧ (get_todos (some "") [todoA]).1 = Except.ok [todoA]
  ∧ (get_todos (some "") [todoA]).2 = [todoA] := by
  refine ⟨rfl, ?_, rfl⟩
  decide

/-- C5 (amended): list never mutates the collection; an absent filter
defaults to `all`; the request succeeds exactly when the filter is absent,
empty, or lowercases to one of `all` / `completed` / `pending`; and any
other non-empty value fails with `InvalidFilter`. -/
theorem c5_filter_semantics (fp : Option String) (s : AppState) :
    (get_todos fp s).2 = s
  ∧ get_todos Option.none s = get_todos (some "all") s
  ∧ ((get_todos fp s).1.isOk = true ↔
      (fp = Option.none ∨ fp = some "" ∨
        ∃ v, fp = some v ∧ validFilters.contains (pyLower v) = true))
  ∧ (∀ v, fp = some v → (v == "") = false → validFilters.contains (pyLower v) = false →
      (get_todos fp s).1 = Except.error (ApiError.validation
        "Invalid filter parameter. Must be one of: all, completed, pending" 400)) := by
  refine ⟨?_, rfl, ?_, ?_⟩
  · cases fp with
    | none => rfl
    | some v =>
      unfold get_todos
      split <;> rfl
  · cases fp with
    | none =>
      have hok : (get_todos Option.none s).1.isOk = true := rfl
      simp [hok]
    | some v =>
      by_cases hv : (v == "") = true
      · have hv2 : v = "" := by simpa using hv
        subst hv2
        have hok : (get_todos (some "") s).1.isOk = true := rfl
        simp [hok]
      · have hv' : (v == "") = false := by simpa using hv
        by_cases hc : validFilters.contains (pyLower v) = true
        · have hval := validate_filter_param_ok v hv' hc
          have hok : (get_todos (some v) s).1.isOk = true := by
            unfold get_todos
            simp only [Option.getD_some]
            rw [hval]
            rfl
          rw [hok]
          simp only [true_iff]
          exact Or.inr (Or.inr ⟨v, rfl, hc⟩)
        · have hc' : validFilters.contains (pyLower v) = false := by simpa using hc
          have hval := validate_filter_param_err v hv' hc'
          have herr : (get_todos (some v) s).1.isOk = false := by
            unfold get_todos
            simp only [Option.getD_some]
            rw [hval]
            rfl
          rw [herr]
          constructor
          · intro h; exact absurd h (by simp)
          · rintro (h | h | ⟨w, hw, hcw⟩)
            · exact absurd h (by simp)
            · rw [show v = "" from by injection h] at hv'
              simp at hv'
            · rw [show w = v from by { injection hw with h2; exact h2.symm }] at hcw
              rw [hcw] at hc'
              simp at hc'
  · intro v hfp hv hc
    subst hfp
    have hval := validate_filter_param_err v hv hc
    unfold get_todos
    simp only [Option.getD_some]
    rw [hval]

/-- C5 witness: the rejection branch of `c5_filter_semantics` applied to the
concrete unrecognized filter `"Bogus"`, plus the no-mutation conjunct. -/
theorem c5_filter_semantics_witness :
    (get_todos (some "Bogus") [todoA]).1 = Except.error (ApiError.validation
      "Invalid filter parameter. Must be one of: all, completed, pending" 400)
  ∧ (get_todos (some "Bogus") [todoA]).2 = [todoA] :=
  ⟨(c5_filter_semantics (some "Bogus") [todoA]).2.2.2 "Bogus" rfl (by decide) (by decide),
   (c5_filter_semantics (some "Bogus") [todoA]).1⟩

/-- C6: for every collection state, `list("completed")` and `list("pending")`
exactly partition `list("all")`: multiplicity-wise every todo of the full
list lands in exactly one of the two (counts add up and no todo is in both),
and each result is a sublist of the stored order (insertion order
preserved). -/
theorem c6_filter_partition (s : AppState) :
    (get_todos (some "all") s).1 = Except.ok s
  ∧ (get_todos (some "completed") s).1 = Except.ok (s.filter (fun td => td.completed))
  ∧ (get_todos (some "pending") s).1 = Except.ok (s.filter (fun td => !td.completed))
  ∧ (∀ td : Todo, (s.filter (fun td => td.completed)).count td
      + (s.filter (fun td => !td.completed)).count td = s.count td)
  ∧ (s.filter (fun td => td.completed)).Sublist s
  ∧ (s.filter (fun td => !td.completed)).Sublist s
  ∧ (∀ td : Todo, td ∈ s.filter (fun td => td.completed) →
      td ∉ s.filter (fun td => !td.completed)) := by
  refine ⟨rfl, rfl, rfl, ?_, List.filter_sublist _, List.filter_sublist _, ?_⟩
  · intro td
    have hperm := List.filter_append_perm (fun td => td.completed) s
    have hc := hperm.count_eq td
    rw [← hc, List.count_append]
  · intro td h1 h2
    have hx1 := (List.mem_filter.mp h1).2
    have hx2 := (List.mem_filter.mp h2).2
    simp_all

/-- C6 witness: the disjointness conjunct applied to the concrete two-todo
state, showing the completed `todoB` is not in the pending list. -/
theorem c6_filter_partition_witness :
    todoB ∉ List.filter (fun td => !td.completed) [todoA, todoB] :=
  (c6_filter_partition [todoA, todoB]).2.2.2.2.2.2 todoB (by decide)

/-- A third sample todo (pending), for the three-todo statistics check. -/
def todoC : Todo :=
  { id := "00000000-0000-0000-0000-000000000002", title := "Call mom", description := "",
    completed := false, created_at := 4, updated_at := 4 }

/-- C7: for every collection state, stats returns `total` = number of todos,
`completed` = number with `completed = true`, `pending = total - completed`
(so `completed + pending = total`), and `completion_rate` =
`completed / total * 100` rounded to 2 decimal places, with rate exactly 0
on the empty collection (no division-by-zero error); concretely, 3 todos
with 1 completed give 33.33, and the empty collection gives all zeros. -/
theorem c7_stats_semantics :
    (∀ (s : AppState) (now : Nat),
      (get_todo_stats s now).total = s.length
      ∧ (get_todo_stats s now).completed = (s.filter (fun td => td.completed)).length
      ∧ (get_todo_stats s now).pending
          = (get_todo_stats s now).total - (get_todo_stats s now).completed
      ∧ (get_todo_stats s now).completed + (get_todo_stats s now).pending
          = (get_todo_stats s now).total
      ∧ (get_todo_stats s now).completion_rate =
          (if 0 < s.length then
            pyRound2 (((s.filter (fun td => td.completed)).length : ℚ) / (s.length : ℚ) * 100)
          else 0))
  ∧ (get_todo_stats [todoA, todoB, todoC] 0).completion_rate = 3333 / 100
  ∧ get_todo_stats [] 0 = ⟨0, 0, 0, 0, 0⟩ := by
  refine ⟨?_, ?_, ?_⟩
  · intro s now
    refine ⟨rfl, rfl, rfl, ?_, rfl⟩
    have hle : (s.filter (fun td => td.completed)).length ≤ s.length :=
      List.length_filter_le _ _
    simp only [get_todo_stats]
    omega
  · have h1 : (get_todo_stats [todoA, todoB, todoC] 0).completion_rate
        = pyRound2 ((1 : ℚ) / 3 * 100) := by
      norm_num [get_todo_stats, todoA, todoB, todoC]
    rw [h1]
    norm_num [pyRound2, roundHalfEven]
  · rfl

/-- C8: a lookup / delete / toggle identifier string the uuid parser rejects
fails with `InvalidIdentifier` (status 400) regardless of the collection
contents - never with not-found; a parseable identifier matching no stored
todo yields the not-found result (404); a parseable identifier whose lookup
finds a todo returns that todo. -/
theorem c8_identifier_contract (tid : String) (t : Nat) (s : AppState) :
    (uuidParseOk tid = false →
      get_todo tid s = Except.error (ApiError.validation "Invalid todo ID format" 400)
      ∧ delete_todo tid s = (Except.error (ApiError.validation "Invalid todo ID format" 400), s)
      ∧ toggle_todo tid t s
          = (Except.error (ApiError.validation "Invalid todo ID format" 400), s))
  ∧ (uuidParseOk tid = true → (∀ td ∈ s, td.id ≠ tid) →
      get_todo tid s = Except.error (ApiError.validation "Todo not found" 404)
      ∧ delete_todo tid s = (Except.error (ApiError.validation "Todo not found" 404), s)
      ∧ toggle_todo tid t s = (Except.error (ApiError.validation "Todo not found" 404), s))
  ∧ (∀ td : Todo, uuidParseOk tid = true → findById s tid = some td →
      get_todo tid s = Except.ok td) := by
  refine ⟨?_, ?_, ?_⟩
  · intro hu
    have hu' : ¬ (uuidParseOk tid = true) := by simp [hu]
    refine ⟨?_, ?_, ?_⟩
    · unfold get_todo; rw [if_neg hu']
    · unfold delete_todo; rw [if_neg hu']
    · unfold toggle_todo; rw [if_neg hu']
  · intro hu hnone
    have hf : findById s tid = none := by
      unfold findById
      rw [List.find?_eq_none]
      intro x hx
      simpa using hnone x hx
    refine ⟨?_, ?_, ?_⟩
    · unfold get_todo; rw [if_pos hu, hf]
    · unfold delete_todo; rw [if_pos hu, hf]
    · unfold toggle_todo; rw [if_pos hu, hf]
  · intro td hu hf
    unfold get_todo
    rw [if_pos hu, hf]

/-- C8 witness: the three branches at concrete inputs: a malformed id, a
well-formed id absent from the collection, and a matching id. -/
theorem c8_identifier_contract_witness :
    get_todo "not-a-uuid" [todoA]
      = Except.error (ApiError.validation "Invalid todo ID format" 400)
  ∧ get_todo uidB [todoA] = Except.error (ApiError.validation "Todo not found" 404)
  ∧ get_todo uidA [todoA] = Except.ok todoA :=
  ⟨((c8_identifier_contract "not-a-uuid" 0 [todoA]).1 (by decide)).1,
   ((c8_identifier_contract uidB 0 [todoA]).2.1 (by decide) (by decide)).1,
   (c8_identifier_contract uidA 0 [todoA]).2.2 todoA (by decide) (by decide)⟩

/-- With unique stored ids (the spec invariant for uuid4-assigned ids), the
lookup of a stored todo's id finds exactly that todo. -/
theorem findById_of_mem (s : AppState) (td : Todo) (tid : String)
    (hnd : (s.map Todo.id).Nodup) (hm : td ∈ s) (hid : td.id = tid) :
    findById s tid = some td := by
  have hsome : (s.find? (fun x => x.id == tid)).isSome := by
    rw [List.find?_isSome]
    exact ⟨td, hm, by simp [hid]⟩
  obtain ⟨td', hfd⟩ := Option.isSome_iff_exists.mp hsome
  have hmem' : td' ∈ s := List.mem_of_find?_eq_some hfd
  have hp : td'.id = tid := by simpa using List.find?_some hfd
  have heq : td' = td :=
    List.inj_on_of_nodup_map hnd hmem' hm (by rw [hp, hid])
  rw [findById, hfd, heq]

/-- Lemma: `list.remove` removes exactly the first occurrence: the list splits
around the removed element and the remainder keeps its order. -/
theorem pyRemove_split (td : Todo) (s : AppState) (hm : td ∈ s) :
    ∃ l1 l2, s = l1 ++ td :: l2 ∧ pyRemove td s = l1 ++ l2 := by
  induction s with
  | nil => simp at hm
  | cons y ys ih =>
    by_cases hy : y = td
    · subst hy
      refine ⟨[], ys, rfl, ?_⟩
      unfold pyRemove
      rw [if_pos rfl]
      rfl
    · have hm2 : td ∈ ys := by
        rcases List.mem_cons.mp hm with h | h
        · exact absurd h.symm hy
        · exact h
      obtain ⟨l1, l2, hs, hr⟩ := ih hm2
      refine ⟨y :: l1, l2, by rw [hs]; rfl, ?_⟩
      unfold pyRemove
      rw [if_neg hy, hr]
      rfl

/-- C9: deleting a stored todo's id from a collection with unique ids
removes exactly that todo - the predecessors and successors survive
unchanged, in order - and succeeds; a second delete of the same id on the
resulting collection yields the not-found result and changes nothing. -/
theorem c9_delete_semantics (s : AppState) (td : Todo) (tid : String)
    (hu : uuidParseOk tid = true)
    (hnd : (s.map Todo.id).Nodup)
    (hm : td ∈ s) (hid : td.id = tid) :
    ∃ l1 l2, s = l1 ++ td :: l2
      ∧ delete_todo tid s = (Except.ok (), l1 ++ l2)
      ∧ delete_todo tid (l1 ++ l2)
          = (Except.error (ApiError.validation "Todo not found" 404), l1 ++ l2) := by
  obtain ⟨l1, l2, hs, hr⟩ := pyRemove_split td s hm
  have hf : findById s tid = some td := findById_of_mem s td tid hnd hm hid
  refine ⟨l1, l2, hs, ?_, ?_⟩
  · unfold delete_todo
    rw [if_pos hu, hf]
    show ((Except.ok () : Except ApiError Unit), pyRemove td s) = (Except.ok (), l1 ++ l2)
    rw [hr]
  · have hnd' : ((l1.map Todo.id) ++ td.id :: (l2.map Todo.id)).Nodup := by
      rw [hs] at hnd
      simpa using hnd
    obtain ⟨hn1, hn2, hdisj⟩ := List.nodup_append.mp hnd'
    have hnot1 : td.id ∉ l1.map Todo.id :=
      fun hx => hdisj hx (List.mem_cons_self _ _)
    have hnot2 : td.id ∉ l2.map Todo.id := (List.nodup_cons.mp hn2).1
    have hnone : findById (l1 ++ l2) tid = none := by
      unfold findById
      rw [List.find?_eq_none]
      intro x hx
      simp only [beq_iff_eq]
      intro hxid
      rcases List.mem_append.mp hx with h | h
      · exact hnot1 (by rw [hid, ← hxid]; exact List.mem_map_of_mem _ h)
      · exact hnot2 (by rw [hid, ← hxid]; exact List.mem_map_of_mem _ h)
    unfold delete_todo
    rw [if_pos hu, hnone]

/-- C9 witness: deleting `todoA` (by its id) from the concrete two-todo
collection, then deleting the same id again. -/
theorem c9_delete_semantics_witness :
    ∃ l1 l2, ([todoA, todoB] : AppState) = l1 ++ todoA :: l2
      ∧ delete_todo uidA [todoA, todoB] = (Except.ok (), l1 ++ l2)
      ∧ delete_todo uidA (l1 ++ l2)
          = (Except.error (ApiError.validation "Todo not found" 404), l1 ++ l2) :=
  c9_delete_semantics [todoA, todoB] todoA uidA (by decide) (by decide) (by decide) rfl

/-- Behaviour of `todo.update(completed=not todo.completed)` as called by the toggle
handler: flips `completed` and stamps `updated_at`. -/
theorem todoUpdate_toggle (td : Todo) (b : Bool) (t : Nat) :
    todoUpdate td PyValue.null PyValue.null (PyValue.bool b) t
      = ({ td with completed := b, updated_at := t }, none) := rfl

/-- C10: every successful update or toggle on an existing todo stamps
`updated_at` with the current clock reading unconditionally - for any
request payload, including one whose provided values equal the stored ones -
while `id` and `created_at` are unchanged; toggle additionally flips
`completed`. -/
theorem c10_update_refreshes_timestamp :
    (∀ (tid : String) (data : ReqData) (t : Nat) (s : AppState) (td1 : Todo),
      (update_todo tid data t s).1 = Except.ok td1 →
      ∃ td, findById s tid = some td ∧ td1.updated_at = t
        ∧ td1.id = td.id ∧ td1.created_at = td.created_at)
  ∧ (∀ (tid : String) (t : Nat) (s : AppState) (td1 : Todo),
      (toggle_todo tid t s).1 = Except.ok td1 →
      ∃ td, findById s tid = some td ∧ td1.updated_at = t
        ∧ td1.id = td.id ∧ td1.created_at = td.created_at
        ∧ td1.completed = !td.completed) := by
  constructor
  · intro tid data t s td1 h
    unfold update_todo at h
    cases hv : validate_request_data data false with
    | some m => rw [hv] at h; simp at h
    | none =>
      rw [hv] at h
      simp only [] at h
      by_cases hu : uuidParseOk tid = true
      · rw [if_pos hu] at h
        cases hf : findById s tid with
        | none => rw [hf] at h; simp at h
        | some td =>
          rw [hf] at h
          simp only [] at h
          have hk := todoUpdate_keeps td (data.title.getD PyValue.null)
            (data.description.getD PyValue.null) (data.completed.getD PyValue.null) t
          rcases hq : todoUpdate td (data.title.getD PyValue.null)
            (data.description.getD PyValue.null) (data.completed.getD PyValue.null) t
            with ⟨td2, m2⟩
          rw [hq] at h hk
          cases m2 with
          | some m => simp at h
          | none =>
            have hup := todoUpdate_updated_of_ok td (data.title.getD PyValue.null)
              (data.description.getD PyValue.null) (data.completed.getD PyValue.null) t
              (by rw [hq])
            rw [hq] at hup
            have ht : td2 = td1 := by simpa using h
            subst ht
            exact ⟨td, rfl, hup, hk.1, hk.2.1⟩
      · rw [if_neg hu] at h; simp at h
  · intro tid t s td1 h
    unfold toggle_todo at h
    by_cases hu : uuidParseOk tid = true
    · rw [if_pos hu] at h
      cases hf : findById s tid with
      | none => rw [hf] at h; simp at h
      | some td =>
        rw [hf] at h
        simp only [] at h
        rw [todoUpdate_toggle] at h
        simp only [] at h
        have ht : ({ td with completed := !td.completed, updated_at := t } : Todo) = td1 := by
          simpa using h
        subst ht
        exact ⟨td, rfl, rfl, rfl, rfl, rfl⟩
    · rw [if_neg hu] at h; simp at h

/-- C10 witness: a value-preserving update (`completed := false` on a todo
already pending) at clock 9 still stamps `updated_at = 9` and keeps `id` and
`created_at`. -/
theorem c10_update_refreshes_timestamp_witness :
    ∃ td, findById [todoA] uidA = some td
      ∧ (⟨uidA, "Buy milk", "", false, 3, 9⟩ : Todo).updated_at = 9
      ∧ (⟨uidA, "Buy milk", "", false, 3, 9⟩ : Todo).id = td.id
      ∧ (⟨uidA, "Buy milk", "", false, 3, 9⟩ : Todo).created_at = td.created_at :=
  c10_update_refreshes_timestamp.1 uidA
    ⟨Option.none, Option.none, some (PyValue.bool false), false⟩ 9 [todoA]
    ⟨uidA, "Buy milk", "", false, 3, 9⟩ (by decide)

/-- C1 witness: the classification instantiated at a concrete valid request
(title `"ok"`, description `"fine"`). -/
theorem c1_create_error_classification_witness :
    isFieldError (create_todo ⟨some (PyValue.str "ok"), some (PyValue.str "fine"),
        Option.none, false⟩ uidB 0 0 []).1
      = amdC1Bad ⟨some (PyValue.str "ok"), some (PyValue.str "fine"), Option.none, false⟩ :=
  (c1_create_error_classification ⟨some (PyValue.str "ok"), some (PyValue.str "fine"),
    Option.none, false⟩ uidB 0 0 []).1

/-- C7 witness: the stats identities instantiated at the concrete singleton
collection. -/
theorem c7_stats_semantics_witness :
    (get_todo_stats [todoA] 0).total = ([todoA] : AppState).length :=
  (c7_stats_semantics.1 [todoA] 0).1
